import Mathlib

/-!
Verification of the boundary-contract layer of the Agri AI + User API backend
(`main.py`, `database.py`).  The definitions below are a shallow embedding of
the code: Python JSON values become the inductive `Json`, the standard-library
`json.loads` decoder is embedded as `loads`, the fence-stripping regular
expression of `detect_crop_disease` as `fenceSearch`, the response-envelope
extraction as `extractText`, the field projection plus response-model
validation as `projectResult`, and the endpoint bodies as `detect`,
`add_user`, `get_users` and `startApp`.  Fallible Python code returns
`Option`/`Except`; an uncaught Python exception is an `Except.error`.
-/

namespace Agri

/-- Python exception kinds that the embedded code can raise. -/
inductive PyErr where
  | attributeError
  | indexError
  | keyError
  | typeError
  | validationError
  | decodeError
deriving DecidableEq, Repr

/-- Numeric values produced by Python `json.loads`: a finite number is kept
exactly as the numerator/denominator pair its decimal literal denotes (ints
and decimal floats merge into one exact rational; the code only passes
numbers through, it never computes with them), and the non-finite constants
`NaN`, `Infinity`, `-Infinity` that the decoder accepts are kept
symbolically. -/
inductive JNum where
  | finite (num : Int) (den : Nat)
  | nan
  | inf
  | negInf
deriving DecidableEq, Repr

/-- Python values that `json.loads` can return: `None`, `bool`, numbers,
`str`, `list`, `dict` (string keys, insertion ordered, last assignment
wins). -/
inductive Json where
  | null
  | bool (b : Bool)
  | num (v : JNum)
  | str (s : String)
  | arr (elems : List Json)
  | obj (members : List (String × Json))

/-- Whitespace accepted between JSON tokens by Python `json.loads`. -/
def jsonWs (c : Char) : Bool :=
  c == ' ' || c == '\t' || c == '\n' || c == '\r'

/-- Whitespace for Python `str.strip()` and the `\s` class of the `re`
module (the ASCII part; the inputs the code handles are covered by it). -/
def pyWs (c : Char) : Bool :=
  c == ' ' || c == '\t' || c == '\n' || c == '\r' || c == '\x0b' || c == '\x0c'

/-- Drop an expected literal prefix from a character list, or fail. -/
def dropPrefixL : List Char → List Char → Option (List Char)
  | [], l => some l
  | _ :: _, [] => none
  | p :: ps, c :: cs => if c = p then dropPrefixL ps cs else none

/-- Python `dict` assignment `d[k] = v` on an insertion-ordered association
list: an existing key keeps its position but gets the new value. -/
def dictInsert (kvs : List (String × Json)) (k : String) (v : Json) :
    List (String × Json) :=
  match kvs with
  | [] => [(k, v)]
  | (k', v') :: rest =>
    if k' = k then (k', v) :: rest else (k', v') :: dictInsert rest k v

/-- Match a literal keyword tail (after its first character) and produce the
given JSON constant. -/
def expectLit (lit : String) (l : List Char) (v : Json) :
    Option (Json × List Char) :=
  match dropPrefixL lit.data l with
  | some r => some (v, r)
  | none => none

/-- Value of a hexadecimal digit. -/
def hexVal (c : Char) : Option Nat :=
  if '0' ≤ c ∧ c ≤ '9' then some (c.toNat - 48)
  else if 'a' ≤ c ∧ c ≤ 'f' then some (c.toNat - 87)
  else if 'A' ≤ c ∧ c ≤ 'F' then some (c.toNat - 55)
  else none

/-- Four hexadecimal digits of a `\uXXXX` escape. -/
def parseHex4 : List Char → Option (Nat × List Char)
  | a :: b :: c :: d :: rest =>
    match hexVal a, hexVal b, hexVal c, hexVal d with
    | some x, some y, some z, some w =>
      some (((x * 16 + y) * 16 + z) * 16 + w, rest)
    | _, _, _, _ => none
  | _ => none

/-- Body of a JSON string after the opening quote, with the escapes Python
accepts; raw control characters are rejected (strict mode).  A lone
surrogate escape is mapped through `Char.ofNat` rather than kept as a
Python surrogate code unit; no claim depends on that corner. -/
def parseStringAux : Nat → List Char → List Char → Option (String × List Char)
  | 0, _, _ => none
  | fuel + 1, l, acc =>
    match l with
    | [] => none
    | c :: r =>
      if c = '\"' then some (String.mk acc.reverse, r)
      else if c = '\\' then
        match r with
        | [] => none
        | e :: r2 =>
          if e = '\"' then parseStringAux fuel r2 ('\"' :: acc)
          else if e = '\\' then parseStringAux fuel r2 ('\\' :: acc)
          else if e = '/' then parseStringAux fuel r2 ('/' :: acc)
          else if e = 'b' then parseStringAux fuel r2 ('\x08' :: acc)
          else if e = 'f' then parseStringAux fuel r2 ('\x0c' :: acc)
          else if e = 'n' then parseStringAux fuel r2 ('\n' :: acc)
          else if e = 'r' then parseStringAux fuel r2 ('\r' :: acc)
          else if e = 't' then parseStringAux fuel r2 ('\t' :: acc)
          else if e = 'u' then
            match parseHex4 r2 with
            | some (n, r3) => parseStringAux fuel r3 (Char.ofNat n :: acc)
            | none => none
          else none
      else if c.toNat < 32 then none
      else parseStringAux fuel r (c :: acc)

/-- Digits to a natural number. -/
def digitsToNat (ds : List Char) : Nat :=
  ds.foldl (fun acc c => acc * 10 + (c.toNat - 48)) 0

/-- Fractional part of a JSON number: a dot must be followed by at least one
digit; no dot leaves the input unchanged. -/
def parseFrac : List Char → Option (List Char × List Char)
  | '.' :: rest =>
    let fd := rest.takeWhile Char.isDigit
    if fd.isEmpty then none else some (fd, rest.dropWhile Char.isDigit)
  | l => some (([] : List Char), l)

/-- Exponent digits after `e`/`E` and an optional sign. -/
def expDigits (l : List Char) (neg : Bool) : Option (Int × List Char) :=
  let ds := l.takeWhile Char.isDigit
  if ds.isEmpty then none
  else
    let n : Int := digitsToNat ds
    some (if neg then -n else n, l.dropWhile Char.isDigit)

/-- Optional exponent part of a JSON number. -/
def parseExpPart : List Char → Option (Int × List Char)
  | [] => some ((0 : Int), ([] : List Char))
  | c :: rest =>
    if c = 'e' ∨ c = 'E' then
      match rest with
      | '+' :: r2 => expDigits r2 false
      | '-' :: r2 => expDigits r2 true
      | r2 => expDigits r2 false
    else some ((0 : Int), c :: rest)

/-- JSON number after an optional leading minus sign, following the decoder
grammar of Python `json` (no leading zeros, dot and exponent need digits). -/
def parseNumber (neg : Bool) (l : List Char) : Option (Json × List Char) :=
  let ip := l.takeWhile Char.isDigit
  let r1 := l.dropWhile Char.isDigit
  if ip.isEmpty then none
  else if 1 < ip.length ∧ ip.headD '0' = '0' then none
  else
    match parseFrac r1 with
    | none => none
    | some (fd, r2) =>
      match parseExpPart r2 with
      | none => none
      | some (e, r3) =>
        let mant : Nat := digitsToNat ip * 10 ^ fd.length + digitsToNat fd
        let nd : Nat × Nat :=
          match e with
          | .ofNat k => (mant * 10 ^ k, 10 ^ fd.length)
          | .negSucc k => (mant, 10 ^ (fd.length + (k + 1)))
        let nm : Int := if neg then -(nd.1 : Int) else (nd.1 : Int)
        some (.num (.finite nm nd.2), r3)

mutual

/-- One JSON value, leading whitespace allowed, following the recursive
decoder of Python `json.loads` (which also accepts the non-finite constants
`NaN`, `Infinity` and `-Infinity`).  Fuel bounds the recursion depth. -/
def parseValue : Nat → List Char → Option (Json × List Char)
  | 0, _ => none
  | fuel + 1, l =>
    match l.dropWhile jsonWs with
    | [] => none
    | c :: r =>
      if c = 'n' then expectLit "ull" r Json.null
      else if c = 't' then expectLit "rue" r (Json.bool true)
      else if c = 'f' then expectLit "alse" r (Json.bool false)
      else if c = 'N' then expectLit "aN" r (Json.num JNum.nan)
      else if c = 'I' then expectLit "nfinity" r (Json.num JNum.inf)
      else if c = '\"' then
        match parseStringAux (r.length + 1) r [] with
        | some (s, rest) => some (Json.str s, rest)
        | none => none
      else if c = '[' then
        match r.dropWhile jsonWs with
        | ']' :: rest => some (Json.arr [], rest)
        | r2 => parseElems fuel r2 []
      else if c = '\x7b' then
        match r.dropWhile jsonWs with
        | '\x7d' :: rest => some (Json.obj [], rest)
        | r2 => parseMembers fuel r2 []
      else if c = '-' then
        match r with
        | 'I' :: r2 => expectLit "nfinity" r2 (Json.num JNum.negInf)
        | _ => parseNumber true r
      else if c.isDigit then parseNumber false (c :: r)
      else none

/-- Comma-separated array elements up to the closing bracket. -/
def parseElems : Nat → List Char → List Json → Option (Json × List Char)
  | 0, _, _ => none
  | fuel + 1, l, acc =>
    match parseValue fuel l with
    | none => none
    | some (v, r) =>
      match r.dropWhile jsonWs with
      | ',' :: r2 => parseElems fuel r2 (acc ++ [v])
      | ']' :: r2 => some (Json.arr (acc ++ [v]), r2)
      | _ => none

/-- Comma-separated object members up to the closing brace, with Python
`dict` semantics for duplicate keys. -/
def parseMembers : Nat → List Char → List (String × Json) →
    Option (Json × List Char)
  | 0, _, _ => none
  | fuel + 1, l, acc =>
    match l.dropWhile jsonWs with
    | '\"' :: r =>
      match parseStringAux (r.length + 1) r [] with
      | none => none
      | some (k, r2) =>
        match r2.dropWhile jsonWs with
        | ':' :: r3 =>
          match parseValue fuel r3 with
          | none => none
          | some (v, r4) =>
            match r4.dropWhile jsonWs with
            | ',' :: r5 => parseMembers fuel r5 (dictInsert acc k v)
            | '\x7d' :: r5 => some (Json.obj (dictInsert acc k v), r5)
            | _ => none
        | _ => none
    | _ => none

end

/-- Embedding of Python `json.loads`: decode exactly one JSON document,
rejecting trailing non-whitespace; `none` is a raised `JSONDecodeError`. -/
def loads (s : String) : Option Json :=
  match parseValue (2 * s.data.length + 8) s.data with
  | some (v, rest) => if (rest.dropWhile jsonWs).isEmpty then some v else none
  | none => none

/-- Python `str.strip()` on a character list: whitespace removed from both
ends. -/
def wsStrip (l : List Char) : List Char :=
  ((l.dropWhile pyWs).reverse.dropWhile pyWs).reverse

/-- Python `str.strip()`. -/
def pyStrip (s : String) : String := String.mk (wsStrip s.data)

/-- After the closing brace of the capture group, the pattern continues with
whitespace and the literal three backticks: with greedy backtracking this
holds exactly when the backticks start at the first non-whitespace
position. -/
def qualifies (l : List Char) : Bool :=
  "```".data.isPrefixOf (l.dropWhile pyWs)

/-- Greedy body of the capture group after its opening brace: the prefix of
`body` ending at the rightmost closing brace that is followed by whitespace
and three backticks (the backtracking order of a greedy dot-star). -/
def findGroupAux : List Char → Option (List Char)
  | [] => none
  | c :: rest =>
    match findGroupAux rest with
    | some g => some (c :: g)
    | none =>
      if c = '\x7d' ∧ qualifies rest then some ['\x7d'] else none

/-- Attempt to match the fence pattern at this exact position: the literal
backtick-backtick-backtick-json, greedy whitespace, then the brace-delimited
capture group. -/
def matchAt (l : List Char) : Option (List Char) :=
  match dropPrefixL "```json".data l with
  | none => none
  | some r =>
    match r.dropWhile pyWs with
    | c :: body =>
      if c = '\x7b' then (findGroupAux body).map (fun g => '\x7b' :: g)
      else none
    | [] => none

/-- Leftmost match of the fence pattern: try each start position from the
left, as `re.search` does. -/
def fenceSearchAux : List Char → Option (List Char)
  | [] => none
  | c :: rest =>
    match matchAt (c :: rest) with
    | some g => some g
    | none => fenceSearchAux rest

/-- Embedding of the Python line
`re.search(r'BTBTBTjson\s*(\LB.*\RB)\s*BTBTBT', text_resp, re.DOTALL)`
(BT a backtick, LB/RB braces), returning the first capture group of the
leftmost match. -/
def fenceSearch (s : String) : Option String :=
  (fenceSearchAux s.data).map String.mk

/-- Step 8 of `detect_crop_disease` before decoding: the fenced capture
group if the pattern matches, otherwise the raw text trimmed. -/
def cleanJson (s : String) : String :=
  match fenceSearch s with
  | some g => g
  | none => pyStrip s

/-- A reply wrapped in a markdown code fence labelled `json`. -/
def wrapFence (s : String) : String := "```json\n" ++ s ++ "\n```"

/-- Python `dict.get(k, d)` value on an association list (the default is
used only when the key is absent; a stored `None` is returned as such). -/
def getKD (kvs : List (String × Json)) (k : String) (d : Json) : Json :=
  (List.lookup k kvs).getD d

/-- Python `x.get(k, d)`: only a `dict` has `.get`; any other value raises
`AttributeError`. -/
def pyDictGet (x : Json) (k : String) (d : Json) : Except PyErr Json :=
  match x with
  | .obj kvs => .ok (getKD kvs k d)
  | _ => .error .attributeError

/-- Python `x[0]`: first element of a list (`IndexError` when empty), first
character of a string, `KeyError` on a dict with string keys, `TypeError`
otherwise. -/
def pyIndex0 (x : Json) : Except PyErr Json :=
  match x with
  | .arr [] => .error .indexError
  | .arr (v :: _) => .ok v
  | .str s =>
    match s.data with
    | [] => .error .indexError
    | c :: _ => .ok (.str (String.mk [c]))
  | .obj _ => .error .keyError
  | _ => .error .typeError

/-- Step 7 of `detect_crop_disease`: the chained
`data.get("candidates", [dict()])[0].get("content", dict()).get("parts", [dict()])[0].get("text", "")`
extraction of the answer text from the response envelope. -/
def extractText (data : Json) : Except PyErr Json := do
  let cands ← pyDictGet data "candidates" (.arr [.obj []])
  let c0 ← pyIndex0 cands
  let content ← pyDictGet c0 "content" (.obj [])
  let parts ← pyDictGet content "parts" (.arr [.obj []])
  let p0 ← pyIndex0 parts
  pyDictGet p0 "text" (.str "")

/-- The `Medicine` response model of `main.py`: six optional text fields. -/
structure Medicine where
  name_en : Option String
  name_hi : Option String
  dose_en : Option String
  dose_hi : Option String
  purpose_en : Option String
  purpose_hi : Option String
deriving DecidableEq, Repr

/-- The `DetectResponse` response model of `main.py`: all fields optional;
the `raw` field is commented out in the source and therefore absent. -/
structure DetectResponse where
  crop_en : Option String
  crop_hi : Option String
  disease_en : Option String
  disease_hi : Option String
  confidence : Option JNum
  recommendations_en : Option String
  recommendations_hi : Option String
  medicines : Option (List Medicine)
deriving DecidableEq, Repr

/-- The `DetectResponse` value with every field absent. -/
def emptyResponse : DetectResponse :=
  ⟨none, none, none, none, none, none, none, none⟩

/-- Python `x.get(k)` (default `None`): `AttributeError` unless `x` is a
dict. -/
def pyGet (x : Json) (k : String) : Except PyErr Json :=
  match x with
  | .obj kvs => .ok (getKD kvs k .null)
  | _ => .error .attributeError

/-- Response-model validation of an `Optional[str]` field (optional with
default `None`, as the source intends for every field): `None` stays
absent, a string passes through, anything else is a validation error.
Numeric-to-string coercion corners of the validation library are outside
every modelled claim. -/
def asOptStr : Json → Except PyErr (Option String)
  | .null => .ok none
  | .str s => .ok (some s)
  | _ => .error .validationError

/-- Response-model validation of the `Optional[float]` confidence field:
numbers (ints, floats, and the non-finite constants) pass through, booleans
coerce as Python ints, `None` stays absent. -/
def asOptNum : Json → Except PyErr (Option JNum)
  | .null => .ok none
  | .num v => .ok (some v)
  | .bool b => .ok (some (.finite (if b then 1 else 0) 1))
  | _ => .error .validationError

/-- Response-model validation of one `Medicine` element: a dict whose six
fields are read with absent-means-`None` semantics. -/
def asMedicine (j : Json) : Except PyErr Medicine :=
  match j with
  | .obj m => do
    let a ← asOptStr (getKD m "name_en" .null)
    let b ← asOptStr (getKD m "name_hi" .null)
    let c ← asOptStr (getKD m "dose_en" .null)
    let d ← asOptStr (getKD m "dose_hi" .null)
    let e ← asOptStr (getKD m "purpose_en" .null)
    let f ← asOptStr (getKD m "purpose_hi" .null)
    return ⟨a, b, c, d, e, f⟩
  | _ => .error .validationError

/-- Validate a list of medicines element by element, in order. -/
def medListM : List Json → Except PyErr (List Medicine)
  | [] => .ok []
  | x :: xs => do
    let m ← asMedicine x
    let rest ← medListM xs
    return m :: rest

/-- Response-model validation of the `Optional[List[Medicine]]` field. -/
def asOptMedicines : Json → Except PyErr (Option (List Medicine))
  | .null => .ok none
  | .arr xs => do
    let ms ← medListM xs
    return some ms
  | _ => .error .validationError

/-- Step 9 of `detect_crop_disease`: the handler builds the response dict
with eight `result.get(...)` reads (each raising `AttributeError` when
`result` is not a dict), then the `response_model` validates it into
`DetectResponse`.  The internal `raw_text` key of a degraded result is not
among the read fields, so it never reaches the response. -/
def projectResult (result : Json) : Except PyErr DetectResponse := do
  let ce ← pyGet result "crop_en"
  let ch ← pyGet result "crop_hi"
  let de ← pyGet result "disease_en"
  let dh ← pyGet result "disease_hi"
  let cf ← pyGet result "confidence"
  let re ← pyGet result "recommendations_en"
  let rh ← pyGet result "recommendations_hi"
  let md ← pyGet result "medicines"
  let ce2 ← asOptStr ce
  let ch2 ← asOptStr ch
  let de2 ← asOptStr de
  let dh2 ← asOptStr dh
  let cf2 ← asOptNum cf
  let re2 ← asOptStr re
  let rh2 ← asOptStr rh
  let md2 ← asOptMedicines md
  return ⟨ce2, ch2, de2, dh2, cf2, re2, rh2, md2⟩

/-- Steps 8 and 9 of `detect_crop_disease` on the extracted text: decode the
fence-stripped text, degrading to a dict with the single key `raw_text` when
decoding fails (only `JSONDecodeError` is caught), then project. -/
def parseStep (text_resp : String) : Except PyErr DetectResponse :=
  match loads (cleanJson text_resp) with
  | some result => projectResult result
  | none => projectResult (.obj [("raw_text", .str text_resp)])

/-- The base64 alphabet character for a 6-bit index. -/
def b64Char (n : Nat) : Char :=
  (("ABCDEFGHIJKLMNOPQRSTUVWXYZabcdefghijklmnopqrstuvwxyz0123456789+/".data).getD n 'A')

/-- Standard base64 encoding of a byte list with `=` padding, as
`base64.b64encode` produces. -/
def b64encode : List Nat → String
  | [] => ""
  | [b1] =>
    let n := (b1 % 256) * 65536
    String.mk [b64Char (n / 262144), b64Char (n / 4096 % 64)] ++ "=="
  | [b1, b2] =>
    let n := (b1 % 256) * 65536 + (b2 % 256) * 256
    String.mk [b64Char (n / 262144), b64Char (n / 4096 % 64), b64Char (n / 64 % 64)] ++ "="
  | b1 :: b2 :: b3 :: rest =>
    let n := (b1 % 256) * 65536 + (b2 % 256) * 256 + b3 % 256
    String.mk [b64Char (n / 262144), b64Char (n / 4096 % 64), b64Char (n / 64 % 64), b64Char (n % 64)] ++
      b64encode rest

/-- The fixed prompt template of `detect_crop_disease`, verbatim from the
source. -/
def prompt : String :=
  "You are an agricultural expert AI. Analyze the uploaded crop image carefully and respond ONLY with valid JSON (no markdown, no extra text). The JSON must contain both English and Hindi fields. Include detailed disease diagnosis, treatment recommendations, and AT LEAST 10 medicine suggestions that are commonly used and agriculture-approved in India.\n" ++
  "\n" ++
  "JSON format:\n" ++
  "\x7b\n" ++
  "  \"crop_en\": \"<Crop name in English>\",\n" ++
  "  \"crop_hi\": \"<फसल का नाम हिंदी में>\",\n" ++
  "  \"disease_en\": \"<Disease name in English or \x27Healthy\x27>\",\n" ++
  "  \"disease_hi\": \"<रोग का नाम हिंदी में या \x27स्वस्थ\x27>\",\n" ++
  "  \"confidence\": <0.0 - 1.0>,\n" ++
  "  \"recommendations_en\": \"<English treatment and prevention recommendations>\",\n" ++
  "  \"recommendations_hi\": \"<हिंदी में उपचार और रोकथाम के सुझाव>\",\n" ++
  "  \"medicines\": [\n" ++
  "     \x7b\"name_en\": \"<Medicine name in English>\", \"name_hi\": \"<दवा का हिंदी नाम>\", \"dose_en\": \"<Dose and usage in English>\", \"dose_hi\": \"<मात्रा और उपयोग विधि हिंदी में>\", \"purpose_en\": \"<Purpose in English>\", \"purpose_hi\": \"<उद्देश्य हिंदी में>\"\x7d\n" ++
  "  ]\n" ++
  "\x7d\n" ++
  "\n" ++
  "⚠️ VERY IMPORTANT: Return at least 10 medicine objects under \x27medicines\x27. Each should have English + Hindi name, dose, and purpose.\n" ++
  "⚠️ Output only pure JSON without ```json or markdown code fences.\n" ++
  "Example:\n" ++
  "\x7b\n" ++
  "  \"crop_en\": \"Potato\",\n" ++
  "  \"crop_hi\": \"आलू\",\n" ++
  "  \"disease_en\": \"Late Blight\",\n" ++
  "  \"disease_hi\": \"लेट ब्लाइट\",\n" ++
  "  \"confidence\": 0.95,\n" ++
  "  \"recommendations_en\": \"Remove infected leaves and apply fungicides.\",\n" ++
  "  \"recommendations_hi\": \"संक्रमित पत्तियां हटाएं और फफूंदनाशी का छिड़काव करें।\",\n" ++
  "  \"medicines\": [\n" ++
  "     \x7b\"name_en\": \"Mancozeb\", \"name_hi\": \"मैंकोजेब\", \"dose_en\": \"2g/L\", \"dose_hi\": \"2 ग्राम/लीटर\", \"purpose_en\": \"Fungal control\", \"purpose_hi\": \"फफूंद नियंत्रण\"\x7d,\n" ++
  "     \x7b\"name_en\": \"Copper Oxychloride\", \"name_hi\": \"कॉपर ऑक्सी-क्लोराइड\", \"dose_en\": \"2.5g/L\", \"dose_hi\": \"2.5 ग्राम/लीटर\", \"purpose_en\": \"Protectant fungicide\", \"purpose_hi\": \"संरक्षण हेतु फफूंदनाशी\"\x7d\n" ++
  "  ]\n" ++
  "\x7d"

/-- Step 4 of `detect_crop_disease`: the outbound JSON payload, the fixed
prompt text and the inline base64 image with its declared mime type. -/
def buildPayload (imageB64 : String) (mime : String) : Json :=
  .obj [("contents", .arr [
    .obj [("parts", .arr [
      .obj [("text", .str prompt)],
      .obj [("inline_data", .obj [
        ("mime_type", .str mime),
        ("data", .str imageB64)])]])]])]

/-- The upstream HTTP response the model endpoint returns: a status code
and the raw body text (`response.text`; `response.json()` decodes it). -/
structure UpstreamResp where
  status_code : Nat
  text : String

/-- Outcome of one `/detect` request: an `HTTPException` with status and
detail, a validated response, or an uncaught Python exception (surfaced by
the framework as a 500; kept symbolic here). -/
inductive DetectOutcome where
  | httpError (status : Nat) (detail : String)
  | ok (r : DetectResponse)
  | serverError (e : PyErr)
deriving DecidableEq, Repr

/-- The `detect_crop_disease` endpoint body: validate the image, build the
payload, make the one outbound call (the second component is the payload
actually sent, `none` when no call is made), classify the upstream status,
decode the envelope, extract, parse leniently and project. -/
def detect (imageBytes : List Nat) (mime : String) (up : UpstreamResp) :
    DetectOutcome × Option Json :=
  if imageBytes = [] then
    (.httpError 400 "Empty image file received.", none)
  else
    let payload := buildPayload (b64encode imageBytes) mime
    let outcome : DetectOutcome :=
      if up.status_code ≠ 200 then
        .httpError 502 ("Gemini Error: " ++ up.text)
      else
        match loads up.text with
        | none => .serverError .decodeError
        | some data =>
          match extractText data with
          | .error e => .serverError e
          | .ok (.str t) =>
            match parseStep t with
            | .ok r => .ok r
            | .error e => .serverError e
          | .ok _ => .serverError .typeError
    (outcome, some payload)

/-- The instruction text carried inside an outbound payload, read back from
the fixed position the payload builder puts it at. -/
def promptTextOf (payload : Json) : Option String :=
  match payload with
  | .obj [("contents", .arr [.obj [("parts", .arr (.obj [("text", .str t)] :: _))]])] => some t
  | _ => none

/-- Modelled from the spec: the persisted `User` entity of `models.py`,
which the repository imports but does not include under `src/` — an
integer system-generated identifier (absent until the store assigns it),
a required name and a required email. -/
structure StoredUser where
  id : Option Nat
  name : String
  email : String
deriving DecidableEq, Repr

/-- Modelled from the spec: the relational store visible to the gateway —
the rows of the single `users` table and the next generated identifier. -/
structure DBState where
  nextId : Nat
  users : List StoredUser

/-- The `add_user` endpoint body: construct a row with the given fields,
persist it, and return the stored record with its generated identifier
(populated by the commit/refresh). -/
def add_user (db : DBState) (name email : String) : DBState × StoredUser :=
  let u : StoredUser := ⟨some db.nextId, name, email⟩
  (⟨db.nextId + 1, db.users ++ [u]⟩, u)

/-- The `/users` endpoint body: all rows of the store. -/
def get_users (db : DBState) : List StoredUser := db.users

/-- Spec-side reading of an optional text field, following the spec words
for the projection step: a present string is kept exactly, a missing or
null field is absent. -/
def specOptStr : Json → Option String
  | .str s => some s
  | _ => none

/-- Spec-side reading of the optional confidence field: a present number is
passed through unchanged, a missing or null field is absent. -/
def specOptNum : Json → Option JNum
  | .num v => some v
  | _ => none

/-- Spec-side projection of one medicine record, following the spec words:
each of the six fields read field-by-field, missing means absent. -/
def specMedicine (j : Json) : Medicine :=
  match j with
  | .obj m =>
    ⟨specOptStr (getKD m "name_en" .null), specOptStr (getKD m "name_hi" .null),
     specOptStr (getKD m "dose_en" .null), specOptStr (getKD m "dose_hi" .null),
     specOptStr (getKD m "purpose_en" .null), specOptStr (getKD m "purpose_hi" .null)⟩
  | _ => ⟨none, none, none, none, none, none⟩

/-- Spec-side reading of the optional medicines field: a present list is
mapped element-wise in its original order; missing or null is absent. -/
def specOptMeds : Json → Option (List Medicine)
  | .arr xs => some (xs.map specMedicine)
  | _ => none

/-- Spec-side projection of a decoded object into `DetectionResult`,
written from the spec words: the decoded object is projected
field-by-field; any missing field yields an absent value; the medicines
sequence is mapped element-wise in its original order, with no defaulting
and no inference. -/
def specProjection (j : Json) : DetectResponse :=
  match j with
  | .obj kvs =>
    ⟨specOptStr (getKD kvs "crop_en" .null), specOptStr (getKD kvs "crop_hi" .null),
     specOptStr (getKD kvs "disease_en" .null), specOptStr (getKD kvs "disease_hi" .null),
     specOptNum (getKD kvs "confidence" .null),
     specOptStr (getKD kvs "recommendations_en" .null),
     specOptStr (getKD kvs "recommendations_hi" .null),
     specOptMeds (getKD kvs "medicines" .null)⟩
  | _ => emptyResponse

/-- A value admissible for an optional text field of the schema: absent
(null) or a string. -/
def optStrOk : Json → Bool
  | .null => true
  | .str _ => true
  | _ => false

/-- A value admissible for the optional confidence field of the schema. -/
def optNumOk : Json → Bool
  | .null => true
  | .num _ => true
  | _ => false

/-- A decoded medicine element matching the schema: an object whose six
fields are each absent, null or text. -/
def medOk : Json → Bool
  | .obj m =>
    optStrOk (getKD m "name_en" .null) && optStrOk (getKD m "name_hi" .null) &&
    optStrOk (getKD m "dose_en" .null) && optStrOk (getKD m "dose_hi" .null) &&
    optStrOk (getKD m "purpose_en" .null) && optStrOk (getKD m "purpose_hi" .null)
  | _ => false

/-- An admissible medicines field: absent, null, or a list of schema
medicines. -/
def medsOk : Json → Bool
  | .null => true
  | .arr xs => xs.all medOk
  | _ => false

/-- A decoded value matching the `DetectionResult` schema: a JSON object
whose present fields have the declared types. -/
def schemaMatches : Json → Bool
  | .obj kvs =>
    optStrOk (getKD kvs "crop_en" .null) && optStrOk (getKD kvs "crop_hi" .null) &&
    optStrOk (getKD kvs "disease_en" .null) && optStrOk (getKD kvs "disease_hi" .null) &&
    optNumOk (getKD kvs "confidence" .null) &&
    optStrOk (getKD kvs "recommendations_en" .null) &&
    optStrOk (getKD kvs "recommendations_hi" .null) &&
    medsOk (getKD kvs "medicines" .null)
  | _ => false

/-- Module-level startup of `main.py`: read `GEMINI_API_KEY` from the
process environment (after `load_dotenv`); a missing or empty value is
falsy and raises `RuntimeError` before the app can serve anything. -/
def startApp (env : String → Option String) : Except String String :=
  match env "GEMINI_API_KEY" with
  | none => .error "❌ Please set GEMINI_API_KEY environment variable before running the app"
  | some k =>
    if k = "" then
      .error "❌ Please set GEMINI_API_KEY environment variable before running the app"
    else .ok k

/-! ## Claim theorems -/

/-- C4: for every uploaded file whose byte content has zero length and every
declared mime type, `detect` fails with `InvalidInputError` surfaced as
HTTP 400 with the empty-image detail, and no outbound model call is made
(the payload component is `none`), whatever the upstream would have
answered. -/
theorem claim4_empty_image (mime : String) (up : UpstreamResp) :
    detect [] mime up = (.httpError 400 "Empty image file received.", none) := rfl

/-- C8: if the required `GEMINI_API_KEY` credential is absent from the
process environment at startup, the startup check raises before anything is
served. -/
theorem claim8_missing_key (env : String → Option String)
    (h : env "GEMINI_API_KEY" = none) :
    startApp env =
      .error "❌ Please set GEMINI_API_KEY environment variable before running the app" := by
  unfold startApp
  rw [h]

/-- Witness for C8 at the concrete empty environment. -/
theorem claim8_missing_key_witness :
    startApp (fun _ => none) =
      .error "❌ Please set GEMINI_API_KEY environment variable before running the app" :=
  claim8_missing_key (fun _ => none) rfl

/-- C7: for all (name, email) pairs, `add_user` returns the stored record
with the given fields and a non-null generated identifier, and a subsequent
`get_users` includes a record with matching name and email and a non-null
generated id. -/
theorem claim7_add_then_list (db : DBState) (name email : String) :
    ((add_user db name email).2.name = name ∧
     (add_user db name email).2.email = email ∧
     (add_user db name email).2.id ≠ none) ∧
    ∃ u ∈ get_users (add_user db name email).1,
      u.name = name ∧ u.email = email ∧ u.id ≠ none := by
  refine ⟨⟨rfl, rfl, by simp [add_user]⟩,
    ⟨⟨some db.nextId, name, email⟩, ?_, rfl, rfl, by simp⟩⟩
  simp [add_user, get_users]

/-- C2 counterexample: the upstream check fires for status 201 — a 2xx
success — and, at status 404 with body `nf`, the 502 detail carries only the
raw body, not the original upstream status (the digits 404 appear nowhere in
it).  This refutes both halves of the claim as stated. -/
theorem claim2_counterexample :
    ((detect [1] "image/png" ⟨201, "created"⟩).1 =
       .httpError 502 "Gemini Error: created") ∧
    (200 ≤ 201 ∧ 201 < 300) ∧
    ((detect [1] "image/png" ⟨404, "nf"⟩).1 = .httpError 502 "Gemini Error: nf") ∧
    ¬ ("404".data <:+: ("Gemini Error: nf").data) := by
  refine ⟨rfl, by decide, rfl, by decide⟩

/-- C2 amended: for every upstream response, `detect` (after a non-empty
image) surfaces HTTP 502 with detail `Gemini Error:` followed by the raw
upstream body exactly when the upstream status differs from 200; the
original status code is not part of the detail. -/
theorem claim2_upstream_status (img : List Nat) (mime : String)
    (up : UpstreamResp) (h : img ≠ []) :
    (detect img mime up).1 = .httpError 502 ("Gemini Error: " ++ up.text) ↔
      up.status_code ≠ 200 := by
  constructor
  · intro he hs
    simp only [detect, if_neg h, hs, ne_eq, not_true_eq_false, if_false, ite_false] at he
    split at he <;>
      first
        | exact DetectOutcome.noConfusion he
        | (split at he <;>
            first
              | exact DetectOutcome.noConfusion he
              | (split at he <;> exact DetectOutcome.noConfusion he))
  · intro hs
    simp [detect, h, hs]

/-- Witness for C2 at a concrete 404 upstream. -/
theorem claim2_upstream_status_witness :
    (detect [1] "image/jpeg" ⟨404, "not found"⟩).1 =
      .httpError 502 ("Gemini Error: " ++ "not found") :=
  (claim2_upstream_status [1] "image/jpeg" ⟨404, "not found"⟩ (by decide)).mpr
    (by decide)

/-- C9: whenever two calls of `detect` actually send an outbound request,
whatever the image bytes, declared mime types and upstream behaviour, the
instruction text placed in the two payloads is the same fixed constant —
every call sends byte-identical instructions. -/
theorem claim9_prompt_constant (i1 : List Nat) (m1 : String) (u1 : UpstreamResp)
    (i2 : List Nat) (m2 : String) (u2 : UpstreamResp) (p1 p2 : Json)
    (h1 : (detect i1 m1 u1).2 = some p1) (h2 : (detect i2 m2 u2).2 = some p2) :
    promptTextOf p1 = promptTextOf p2 ∧ promptTextOf p1 = some prompt := by
  have key : ∀ (i : List Nat) (m : String) (u : UpstreamResp) (p : Json),
      (detect i m u).2 = some p → promptTextOf p = some prompt := by
    intro i m u p hp
    by_cases hi : i = []
    · simp [detect, hi] at hp
    · simp only [detect, if_neg hi] at hp
      obtain rfl : buildPayload (b64encode i) m = p := by simpa using hp
      rfl
  rw [key i1 m1 u1 p1 h1, key i2 m2 u2 p2 h2]
  exact ⟨rfl, key i1 m1 u1 p1 h1 ▸ rfl⟩

/-- Witness for C9 at two concrete calls with different images, mime types
and upstream statuses. -/
theorem claim9_prompt_constant_witness :
    promptTextOf (buildPayload (b64encode [0]) "image/png") =
      promptTextOf (buildPayload (b64encode [1, 2]) "image/jpeg") ∧
    promptTextOf (buildPayload (b64encode [0]) "image/png") = some prompt :=
  claim9_prompt_constant [0] "image/png" ⟨200, "x"⟩ [1, 2] "image/jpeg" ⟨404, "y"⟩
    (buildPayload (b64encode [0]) "image/png")
    (buildPayload (b64encode [1, 2]) "image/jpeg") rfl rfl

/-- Computation rule for a successful bind in the `Except` monad. -/
theorem exceptBindOk {α β ε : Type} (x : α) (f : α → Except ε β) :
    (do let y ← Except.ok x; f y : Except ε β) = f x := rfl

/-- Computation rule for `Functor.map` over a successful `Except`. -/
theorem exceptMapOk {α β ε : Type} (f : α → β) (x : α) :
    (f <$> Except.ok x : Except ε β) = .ok (f x) := rfl

/-- A decode failure leaves the degraded internal dict, whose single
`raw_text` key is not among the eight projected fields: the validated
response has every field absent. -/
theorem parseStep_decode_failure (t : String) (h : loads (cleanJson t) = none) :
    parseStep t = .ok emptyResponse := by
  unfold parseStep
  rw [h]
  rfl

/-- C1 counterexample: at a concrete prose reply, `detect` succeeds but the
returned result has every field absent — no field of the response carries
the raw text (the response schema has no `raw_text` field), refuting the
claim that the raw text is the one populated field. -/
theorem claim1_counterexample :
    (detect [1] "image/png"
        ⟨200, "\x7b\"candidates\":[\x7b\"content\":\x7b\"parts\":[\x7b\"text\":\"this is plain prose, not JSON\"\x7d]\x7d\x7d]\x7d"⟩).1 =
      .ok ⟨none, none, none, none, none, none, none, none⟩ := rfl

/-- C1 amended: for every model reply whose extracted text fails JSON
decoding after fence-stripping, `detect` does not raise and returns a
result with no populated field; the raw text is captured only in the
internal degraded dict and is not carried into the response. -/
theorem claim1_decode_degrades (img : List Nat) (mime : String)
    (up : UpstreamResp) (data : Json) (t : String)
    (h0 : img ≠ []) (h1 : up.status_code = 200) (h2 : loads up.text = some data)
    (h3 : extractText data = .ok (.str t)) (h4 : loads (cleanJson t) = none) :
    (detect img mime up).1 = .ok emptyResponse := by
  have hps := parseStep_decode_failure t h4
  simp [detect, h0, h1, h2, h3, hps]

/-- Witness for C1 at a concrete envelope whose text is not valid JSON. -/
theorem claim1_decode_degrades_witness :
    (detect [2] "image/jpeg"
        ⟨200, "\x7b\"candidates\":[\x7b\"content\":\x7b\"parts\":[\x7b\"text\":\"hi\"\x7d]\x7d\x7d]\x7d"⟩).1 =
      .ok emptyResponse :=
  claim1_decode_degrades [2] "image/jpeg" _
    (.obj [("candidates", .arr [.obj [("content",
      .obj [("parts", .arr [.obj [("text", .str "hi")]])])]])])
    "hi" (by decide) rfl rfl rfl rfl

/-- Validation of an optional text field agrees with the spec-side reading
on schema-admissible values. -/
theorem asOptStr_ok (v : Json) (h : optStrOk v = true) :
    asOptStr v = .ok (specOptStr v) := by
  cases v <;> first | rfl | simp [optStrOk] at h

/-- Validation of the confidence field agrees with the spec-side reading on
schema-admissible values. -/
theorem asOptNum_ok (v : Json) (h : optNumOk v = true) :
    asOptNum v = .ok (specOptNum v) := by
  cases v <;> first | rfl | simp [optNumOk] at h

/-- Validation of one medicine element agrees with the spec-side projection
on schema-admissible values. -/
theorem asMedicine_ok (j : Json) (h : medOk j = true) :
    asMedicine j = .ok (specMedicine j) := by
  cases j with
  | obj m =>
    simp only [medOk, Bool.and_eq_true] at h
    obtain ⟨⟨⟨⟨⟨h1, h2⟩, h3⟩, h4⟩, h5⟩, h6⟩ := h
    simp only [asMedicine, asOptStr_ok _ h1, asOptStr_ok _ h2,
      asOptStr_ok _ h3, asOptStr_ok _ h4, asOptStr_ok _ h5, asOptStr_ok _ h6,
      exceptBindOk]
    rfl
  | null => simp [medOk] at h
  | bool b => simp [medOk] at h
  | num n => simp [medOk] at h
  | str s => simp [medOk] at h
  | arr xs => simp [medOk] at h

/-- Element-wise validation of a schema-admissible medicines list is the
spec-side map, in the original order. -/
theorem medListM_ok (xs : List Json) (h : xs.all medOk = true) :
    medListM xs = .ok (xs.map specMedicine) := by
  induction xs with
  | nil => rfl
  | cons x xs ih =>
    simp only [List.all_cons, Bool.and_eq_true] at h
    simp only [medListM, asMedicine_ok x h.1, ih h.2, exceptBindOk]
    rfl

/-- Validation of the medicines field agrees with the spec-side reading on
schema-admissible values. -/
theorem asOptMedicines_ok (v : Json) (h : medsOk v = true) :
    asOptMedicines v = .ok (specOptMeds v) := by
  cases v with
  | null => rfl
  | arr xs =>
    simp only [medsOk] at h
    simp only [asOptMedicines, medListM_ok xs h, exceptBindOk]
    rfl
  | bool b => simp [medsOk] at h
  | num n => simp [medsOk] at h
  | str s => simp [medsOk] at h
  | obj kvs => simp [medsOk] at h

/-- On a decoded value matching the schema, the handler projection plus
response validation equals the spec-side field-by-field projection. -/
theorem projectResult_ok (j : Json) (h : schemaMatches j = true) :
    projectResult j = .ok (specProjection j) := by
  cases j with
  | obj kvs =>
    simp only [schemaMatches, Bool.and_eq_true] at h
    obtain ⟨⟨⟨⟨⟨⟨⟨h1, h2⟩, h3⟩, h4⟩, h5⟩, h6⟩, h7⟩, h8⟩ := h
    simp only [projectResult, pyGet, exceptBindOk,
      asOptStr_ok _ h1, asOptStr_ok _ h2, asOptStr_ok _ h3, asOptStr_ok _ h4,
      asOptNum_ok _ h5, asOptStr_ok _ h6, asOptStr_ok _ h7,
      asOptMedicines_ok _ h8, exceptMapOk]
    rfl
  | null => simp [schemaMatches] at h
  | bool b => simp [schemaMatches] at h
  | num n => simp [schemaMatches] at h
  | str s => simp [schemaMatches] at h
  | arr xs => simp [schemaMatches] at h

/-- C5: for every model reply whose extracted text decodes (after
fence-stripping) to a JSON object matching the `DetectionResult` schema,
the parse-and-project step returns exactly the spec-side projection: each
field equals the corresponding decoded field with no transformation, the
medicines sequence is mapped in its original order, and a missing field is
absent in the result. -/
theorem claim5_exact_projection (t : String) (j : Json)
    (h1 : loads (cleanJson t) = some j) (h2 : schemaMatches j = true) :
    parseStep t = .ok (specProjection j) := by
  unfold parseStep
  rw [h1]
  exact projectResult_ok j h2

/-- Witness for C5 at a concrete schema-matching reply. -/
theorem claim5_exact_projection_witness :
    parseStep "\x7b\"crop_en\":\"Rice\",\"confidence\":0.9,\"medicines\":[\x7b\"name_en\":\"A\"\x7d]\x7d" =
      .ok (specProjection (.obj [("crop_en", .str "Rice"),
        ("confidence", .num (.finite 9 10)),
        ("medicines", .arr [.obj [("name_en", .str "A")]])])) :=
  claim5_exact_projection
    "\x7b\"crop_en\":\"Rice\",\"confidence\":0.9,\"medicines\":[\x7b\"name_en\":\"A\"\x7d]\x7d"
    (.obj [("crop_en", .str "Rice"), ("confidence", .num (.finite 9 10)),
      ("medicines", .arr [.obj [("name_en", .str "A")]])]) rfl rfl

/-- A decoded non-object makes the first `result.get` raise. -/
theorem parseStep_non_object (t : String) (j : Json)
    (h1 : loads (cleanJson t) = some j) (h2 : ∀ kvs, j ≠ .obj kvs) :
    parseStep t = .error .attributeError := by
  unfold parseStep
  rw [h1]
  cases j
  case obj kvs => exact absurd rfl (h2 kvs)
  all_goals rfl

/-- C10: when the extracted model text decodes as valid JSON that is not a
JSON object (a bare number, string, array, boolean or null), `detect`
raises an uncaught `AttributeError` at the field-projection step, because
only decode failures are caught before the decoded value's fields are
read. -/
theorem claim10_non_object_raises (img : List Nat) (mime : String)
    (up : UpstreamResp) (data : Json) (t : String) (j : Json)
    (h0 : img ≠ []) (h1 : up.status_code = 200) (h2 : loads up.text = some data)
    (h3 : extractText data = .ok (.str t)) (h4 : loads (cleanJson t) = some j)
    (h5 : ∀ kvs, j ≠ .obj kvs) :
    (detect img mime up).1 = .serverError .attributeError := by
  have hps := parseStep_non_object t j h4 h5
  simp [detect, h0, h1, h2, h3, hps]

/-- Witness for C10 at a concrete envelope whose text decodes to the bare
number 5. -/
theorem claim10_non_object_raises_witness :
    (detect [3] "image/png"
        ⟨200, "\x7b\"candidates\":[\x7b\"content\":\x7b\"parts\":[\x7b\"text\":\"5\"\x7d]\x7d\x7d]\x7d"⟩).1 =
      .serverError .attributeError :=
  claim10_non_object_raises [3] "image/png" _
    (.obj [("candidates", .arr [.obj [("content",
      .obj [("parts", .arr [.obj [("text", .str "5")]])])]])])
    "5" (.num (.finite 5 1)) (by decide) rfl rfl rfl rfl
    (fun kvs hh => Json.noConfusion hh)

/-- C3 counterexample: on the envelope whose `candidates` field is present
but an empty list, extraction raises `IndexError` — the claim that
extraction never fails on any envelope is false. -/
theorem claim3_counterexample :
    extractText (.obj [("candidates", .arr [])]) = .error .indexError := rfl

/-- C3 amended: whenever an expected field along the fixed path is absent —
no `candidates` key, or the first candidate lacking `content`, or the
content lacking `parts`, or the first part lacking `text` — extraction
yields the empty string rather than raising; failures are possible only
when a present field has an unexpected shape. -/
theorem claim3_absent_field_defaults :
    (∀ kvs : List (String × Json),
      List.lookup "candidates" kvs = none →
      extractText (.obj kvs) = .ok (.str "")) ∧
    (∀ (kvs c0 : List (String × Json)) (rest : List Json),
      List.lookup "candidates" kvs = some (.arr (.obj c0 :: rest)) →
      List.lookup "content" c0 = none →
      extractText (.obj kvs) = .ok (.str "")) ∧
    (∀ (kvs c0 ckvs : List (String × Json)) (rest : List Json),
      List.lookup "candidates" kvs = some (.arr (.obj c0 :: rest)) →
      List.lookup "content" c0 = some (.obj ckvs) →
      List.lookup "parts" ckvs = none →
      extractText (.obj kvs) = .ok (.str "")) ∧
    (∀ (kvs c0 ckvs pkvs : List (String × Json)) (rest prest : List Json),
      List.lookup "candidates" kvs = some (.arr (.obj c0 :: rest)) →
      List.lookup "content" c0 = some (.obj ckvs) →
      List.lookup "parts" ckvs = some (.arr (.obj pkvs :: prest)) →
      List.lookup "text" pkvs = none →
      extractText (.obj kvs) = .ok (.str "")) := by
  refine ⟨?_, ?_, ?_, ?_⟩ <;> intros <;>
    simp [extractText, pyDictGet, pyIndex0, getKD, exceptBindOk, *]

/-- Witness for C3 at one concrete envelope per absence position. -/
theorem claim3_absent_field_defaults_witness :
    extractText (.obj []) = .ok (.str "") ∧
    extractText (.obj [("candidates", .arr [.obj []])]) = .ok (.str "") ∧
    extractText (.obj [("candidates", .arr [.obj [("content", .obj [])]])]) =
      .ok (.str "") ∧
    extractText (.obj [("candidates", .arr [.obj [("content",
      .obj [("parts", .arr [.obj []])])]])]) = .ok (.str "") :=
  ⟨claim3_absent_field_defaults.1 [] rfl,
   claim3_absent_field_defaults.2.1 _ [] [] rfl rfl,
   claim3_absent_field_defaults.2.2.1 _ [("content", .obj [])] [] [] rfl rfl rfl,
   claim3_absent_field_defaults.2.2.2 _
     [("content", .obj [("parts", .arr [.obj []])])]
     [("parts", .arr [.obj []])] [] [] [] rfl rfl rfl rfl⟩

/-- Dropping an expected prefix on the concatenation with that prefix
yields the remainder. -/
theorem dropPrefixL_append (p l : List Char) : dropPrefixL p (p ++ l) = some l := by
  induction p with
  | nil => rfl
  | cons c cs ih => simp [dropPrefixL, ih]

/-- A successful prefix drop recovers the concatenation. -/
theorem dropPrefixL_eq_append (p : List Char) :
    ∀ l r : List Char, dropPrefixL p l = some r → l = p ++ r := by
  induction p with
  | nil =>
    intro l r h
    simp only [dropPrefixL] at h
    obtain rfl := Option.some.inj h
    simp
  | cons c cs ih =>
    intro l r h
    cases l with
    | nil => simp [dropPrefixL] at h
    | cons x xs =>
      simp only [dropPrefixL] at h
      by_cases hx : x = c
      · subst hx
        rw [if_pos rfl] at h
        rw [List.cons_append, ih xs r h]
      · rw [if_neg hx] at h
        cases h

/-- Dropping whitespace walks through an all-whitespace prefix. -/
theorem dropWhile_ws_append (a l : List Char) (ha : ∀ c ∈ a, pyWs c = true) :
    (a ++ l).dropWhile pyWs = l.dropWhile pyWs := by
  induction a with
  | nil => rfl
  | cons c cs ih =>
    have hc : pyWs c = true := ha c (List.mem_cons_self c cs)
    simp only [List.cons_append, List.dropWhile_cons_of_pos hc]
    exact ih (fun x hx => ha x (List.mem_cons_of_mem c hx))

/-- Every list splits as all-whitespace margins around its stripped core. -/
theorem wsStrip_decomp (l : List Char) :
    ∃ a b, l = a ++ wsStrip l ++ b ∧
      (∀ c ∈ a, pyWs c = true) ∧ (∀ c ∈ b, pyWs c = true) := by
  refine ⟨l.takeWhile pyWs, ((l.dropWhile pyWs).reverse.takeWhile pyWs).reverse,
    ?_, ?_, ?_⟩
  · have h2 := List.takeWhile_append_dropWhile pyWs (l.dropWhile pyWs).reverse
    have h3 := congrArg List.reverse h2
    simp only [List.reverse_append, List.reverse_reverse] at h3
    conv_lhs => rw [← List.takeWhile_append_dropWhile pyWs l]
    rw [← h3]
    simp [wsStrip, List.append_assoc]
  · exact fun c hc => List.mem_takeWhile_imp hc
  · intro c hc
    rw [List.mem_reverse] at hc
    exact List.mem_takeWhile_imp hc

/-- Whitespace characters are not closing braces. -/
theorem pyWs_ne_rbrace (c : Char) (h : pyWs c = true) : c ≠ '\x7d' := by
  intro heq
  rw [heq] at h
  exact absurd h (by decide)

/-- A group found in a suffix extends through any preceding characters:
the rightmost qualifying brace wins. -/
theorem findGroupAux_append (v rest g : List Char)
    (h : findGroupAux rest = some g) : findGroupAux (v ++ rest) = some (v ++ g) := by
  induction v with
  | nil => simpa using h
  | cons c cs ih => simp [findGroupAux, ih]

/-- No closing brace, no group. -/
theorem findGroupAux_none (l : List Char) (h : ∀ c ∈ l, c ≠ '\x7d') :
    findGroupAux l = none := by
  induction l with
  | nil => rfl
  | cons c rest ih =>
    have hrest := ih (fun x hx => h x (List.mem_cons_of_mem c hx))
    have hc := h c (List.mem_cons_self c rest)
    simp [findGroupAux, hrest, hc]

/-- A closing brace whose tail qualifies and holds no later brace is the
group end. -/
theorem findGroupAux_last (rest : List Char) (h1 : findGroupAux rest = none)
    (h2 : qualifies rest = true) :
    findGroupAux ('\x7d' :: rest) = some ['\x7d'] := by
  simp [findGroupAux, h1, h2]

/-- On a fenced text whose stripped body is brace-delimited, the pattern
matches at position zero and captures exactly the stripped body. -/
theorem matchAt_wrap (t : String) (v : List Char)
    (h : wsStrip t.data = '\x7b' :: v ++ ['\x7d']) :
    matchAt (wrapFence t).data = some ('\x7b' :: v ++ ['\x7d']) := by
  obtain ⟨a, b, hdecomp, ha, hb⟩ := wsStrip_decomp t.data
  rw [h] at hdecomp
  have e3 : ('\n' :: "```".data) = ['\n', '`', '`', '`'] := rfl
  have hfull : (wrapFence t).data =
      "```json".data ++
        ('\n' :: (a ++ ('\x7b' :: (v ++ ('\x7d' :: (b ++ ('\n' :: "```".data))))))) := by
    have e0 : (wrapFence t).data =
        "```json".data ++ ('\n' :: (t.data ++ ('\n' :: "```".data))) := rfl
    rw [e0, hdecomp]
    simp [List.append_assoc]
  have hnotail : ∀ c ∈ b ++ ('\n' :: "```".data), c ≠ '\x7d' := by
    intro c hc
    rcases List.mem_append.mp hc with hcb | hcr
    · exact pyWs_ne_rbrace c (hb c hcb)
    · rw [e3] at hcr
      simp only [List.mem_cons, List.mem_singleton] at hcr
      rcases hcr with rfl | rfl | rfl | hcr
      · decide
      · decide
      · decide
      · simp at hcr
        rw [hcr]
        decide
  have hq : qualifies (b ++ ('\n' :: "```".data)) = true := by
    unfold qualifies
    rw [dropWhile_ws_append b _ hb]
    rfl
  have hgroup :
      findGroupAux (v ++ ('\x7d' :: (b ++ ('\n' :: "```".data)))) =
        some (v ++ ['\x7d']) :=
    findGroupAux_append v _ _
      (findGroupAux_last _ (findGroupAux_none _ hnotail) hq)
  have hdw : List.dropWhile pyWs
      ('\n' :: (a ++ ('\x7b' :: (v ++ ('\x7d' :: (b ++ ('\n' :: "```".data))))))) =
      '\x7b' :: (v ++ ('\x7d' :: (b ++ ('\n' :: "```".data)))) := by
    rw [List.dropWhile_cons_of_pos (by decide : pyWs '\n' = true),
      dropWhile_ws_append a _ ha,
      List.dropWhile_cons_of_neg (by decide : ¬ pyWs '\x7b' = true)]
  rw [hfull]
  unfold matchAt
  rw [dropPrefixL_append]
  simp [hdw, hgroup]

/-- A position where the pattern matches makes the search succeed with that
group (the search tries positions from the left and position zero is
first). -/
theorem fenceSearchAux_of_matchAt (l g : List Char) (h : matchAt l = some g) :
    fenceSearchAux l = some g := by
  cases l with
  | nil => exact absurd h (by simp [matchAt, dropPrefixL])
  | cons c rest => simp [fenceSearchAux, h]

/-- A text with no three consecutive backticks cannot match the fence
pattern anywhere. -/
theorem fenceSearchAux_none (l : List Char) (h : ¬ ("```".data <:+: l)) :
    fenceSearchAux l = none := by
  induction l with
  | nil => rfl
  | cons c rest ih =>
    have hm : matchAt (c :: rest) = none := by
      cases hmm : matchAt (c :: rest) with
      | none => rfl
      | some g =>
        exfalso
        apply h
        unfold matchAt at hmm
        cases hdp : dropPrefixL "```json".data (c :: rest) with
        | none => rw [hdp] at hmm; simp at hmm
        | some r =>
          have hcr : (c :: rest) = "```json".data ++ r :=
            dropPrefixL_eq_append _ _ _ hdp
          exact ⟨[], "json".data ++ r, by simp [hcr]⟩
    rw [fenceSearchAux, hm]
    apply ih
    intro hinf
    apply h
    obtain ⟨s, u, hsu⟩ := hinf
    exact ⟨c :: s, u, by simp [← hsu]⟩

/-- C6 counterexample: for the valid JSON object text that itself contains
an embedded fence inside a string literal, the unfenced decode extracts the
inner braces and yields the empty object, while the fenced decode yields
the full object — the two decoded values differ, refuting the round-trip
claim as universally stated. -/
theorem claim6_counterexample :
    cleanJson "\x7b\"a\": \"```json \x7b\x7d ```\"\x7d" = "\x7b\x7d" ∧
    cleanJson (wrapFence "\x7b\"a\": \"```json \x7b\x7d ```\"\x7d") =
      "\x7b\"a\": \"```json \x7b\x7d ```\"\x7d" ∧
    loads (cleanJson "\x7b\"a\": \"```json \x7b\x7d ```\"\x7d") = some (.obj []) ∧
    loads (cleanJson (wrapFence "\x7b\"a\": \"```json \x7b\x7d ```\"\x7d")) =
      some (.obj [("a", .str "```json \x7b\x7d ```")]) ∧
    Json.obj [] ≠ Json.obj [("a", .str "```json \x7b\x7d ```")] := by
  refine ⟨rfl, rfl, rfl, rfl, ?_⟩
  intro hcontra
  injection hcontra with hmem
  simp at hmem

/-- C6 amended: for every text whose trimmed form is brace-delimited — in
particular every valid JSON object — and which does not itself contain
three consecutive backticks, the lenient parser hands the decoder the
identical trimmed string whether the text is wrapped in a fence or not, so
fenced and unfenced inputs decode identically. -/
theorem claim6_fence_roundtrip (t : String) (v : List Char)
    (h1 : (pyStrip t).data = '\x7b' :: v ++ ['\x7d'])
    (h2 : ¬ ("```".data <:+: t.data)) :
    cleanJson (wrapFence t) = cleanJson t ∧
    loads (cleanJson (wrapFence t)) = loads (cleanJson t) := by
  have hm := matchAt_wrap t v h1
  have hf : fenceSearchAux (wrapFence t).data = some ('\x7b' :: v ++ ['\x7d']) :=
    fenceSearchAux_of_matchAt _ _ hm
  have hclean1 : cleanJson (wrapFence t) = String.mk ('\x7b' :: v ++ ['\x7d']) := by
    simp [cleanJson, fenceSearch, hf]
  have hclean2 : cleanJson t = pyStrip t := by
    simp [cleanJson, fenceSearch, fenceSearchAux_none t.data h2]
  have hmk : String.mk ('\x7b' :: v ++ ['\x7d']) = pyStrip t := by
    rw [← h1]
  rw [hclean1, hclean2, hmk]
  exact ⟨rfl, rfl⟩

/-- Witness for C6 at a concrete fenced JSON object. -/
theorem claim6_fence_roundtrip_witness :
    cleanJson (wrapFence " \x7b\"ok\": true\x7d ") = cleanJson " \x7b\"ok\": true\x7d " ∧
    loads (cleanJson (wrapFence " \x7b\"ok\": true\x7d ")) =
      loads (cleanJson " \x7b\"ok\": true\x7d ") :=
  claim6_fence_roundtrip " \x7b\"ok\": true\x7d " "\"ok\": true".data
    (by decide) (by decide)

end Agri
